import Mathlib

/-!
Verification development for the use-cache repository (cache-aside layer).

The embedding translates, from the Python sources:
  * `src/use_cache/backends/inmemory.py` — the in-memory backend: a map from
    string keys to `{data, ttl_ts}` values with lazy expiry on access.
    Python's `time.time()` clock is modelled by an explicit `now : Nat`
    argument to every operation; `bytes` payloads are a type parameter.
    `InMemoryBackend._store` is a class attribute (one dictionary shared by
    every instance), which the instance-level model below makes explicit.
  * `src/use_cache/coders.py` — the JSON coder (`JsonEncoder.default`,
    `object_hook`, `JsonCoder`): modelled on JSON trees (`JVal`); the
    `json.dumps`/`json.loads` byte serialization of a tree is taken as the
    identity on trees (dictionary keys are strings in the model).  Python
    values are `PyVal`; `datetime`/`date` are modelled to second precision
    without time zones, `Decimal` by its canonical `str()` printing.
  * `src/use_cache/decorators.py` — the `cache` decorator's `inner`
    coroutine, including its `nonlocal` closure cells for `expire` and
    `key_builder`, backend-failure suppression, and per-call manager lookup.
  * `src/use_cache/manager.py` — the configuration held by `CacheManager`.
-/

namespace UseCache

/-- Python `x or d` on an optional integer, where `0` is falsy:
`None or d = d`, `0 or d = d`, `n or d = n` for `n ≠ 0`. -/
def pyOrNat (x : Option Nat) (d : Nat) : Nat :=
  match x with
  | none => d
  | some n => if n = 0 then d else n

/-- `Value` dataclass of `inmemory.py`: payload plus absolute expiry
timestamp `ttl_ts` (integer seconds, as produced by `int(time.time())`). -/
structure Value (α : Type) where
  data : α
  ttl_ts : Nat
deriving DecidableEq, Repr

/-- The backend's map `Dict[str, Value]`, as an association list with unique
keys (Python dictionary: insertion order, assignment replaces in place). -/
abbrev Store (α : Type) := List (String × Value α)

/-- `store.get(key)`. -/
def lookupStore {α : Type} : Store α → String → Option (Value α)
  | [], _ => none
  | (k', v) :: rest, k => if k' = k then some v else lookupStore rest k

/-- `store[key] = v`: replace in place if present, else append (Python
dictionary assignment keeps the first-insertion position). -/
def setKV {α : Type} : Store α → String → Value α → Store α
  | [], k, v => [(k, v)]
  | (k', v') :: rest, k, v =>
    if k' = k then (k, v) :: rest else (k', v') :: setKV rest k v

/-- `del store[key]` (no-op when absent, matching callers that check first). -/
def delKV {α : Type} : Store α → String → Store α
  | [], _ => []
  | (k', v') :: rest, k => if k' = k then rest else (k', v') :: delKV rest k

namespace InMemoryBackend

/-- `InMemoryBackend._get`: look the key up; if present and `ttl_ts < now`
delete it and report absent, otherwise return it.  Returns the possibly
updated store alongside the result. -/
def getAux {α : Type} (store : Store α) (key : String) (now : Nat) :
    Option (Value α) × Store α :=
  match lookupStore store key with
  | some v => if v.ttl_ts < now then (none, delKV store key) else (some v, store)
  | none => (none, store)

/-- `InMemoryBackend.get_with_ttl`. -/
def get_with_ttl {α : Type} (store : Store α) (key : String) (now : Nat) :
    (Nat × Option α) × Store α :=
  match getAux store key now with
  | (some v, s) => ((v.ttl_ts - now, some v.data), s)
  | (none, s) => ((0, none), s)

/-- `InMemoryBackend.get`. -/
def get {α : Type} (store : Store α) (key : String) (now : Nat) :
    Option α × Store α :=
  match getAux store key now with
  | (some v, s) => (some v.data, s)
  | (none, s) => (none, s)

/-- `InMemoryBackend.set`: stores `Value(value, now + (expire or 0))`. -/
def set {α : Type} (store : Store α) (key : String) (value : α)
    (expire : Option Nat) (now : Nat) : Store α :=
  setKV store key ⟨value, now + pyOrNat expire 0⟩

/-- `k.startswith(prefix)`: the second string's characters are an initial
segment of the first's. -/
def strStartsWith (s p : String) : Bool :=
  p.data.isPrefixOf s.data

/-- Python truthiness of an optional string argument (`if namespace:`):
`None` and `""` are falsy. -/
def strTruthy (x : Option String) : Bool :=
  match x with
  | none => false
  | some s => s ≠ ""

/-- `InMemoryBackend.clear(namespace, key)`: namespace branch deletes every
key with the given prefix and counts them; key branch deletes one entry if
present; otherwise the whole store is flushed and its size returned. -/
def clear {α : Type} (store : Store α) (ns : Option String) (key : Option String) :
    Nat × Store α :=
  if strTruthy ns then
    let n := ns.getD ""
    ((store.filter (fun p => strStartsWith p.1 n)).length,
      store.filter (fun p => !(strStartsWith p.1 n)))
  else if strTruthy key then
    let k := key.getD ""
    ((if (lookupStore store k).isSome then 1 else 0), delKV store k)
  else
    (store.length, [])

/-- `_store` is a class attribute of `InMemoryBackend`: `self._store` on any
instance resolves to the one class-level dictionary (no instance ever
rebinds it; all mutations are in-place).  An instance is modelled by an
identifier that the operation necessarily ignores, acting on the class
store. -/
def instSet {α : Type} (classStore : Store α) (_inst : Nat) (key : String)
    (value : α) (expire : Option Nat) (now : Nat) : Store α :=
  set classStore key value expire now

/-- `get` called through a particular instance: reads the class store. -/
def instGet {α : Type} (classStore : Store α) (_inst : Nat) (key : String)
    (now : Nat) : Option α × Store α :=
  get classStore key now

end InMemoryBackend

/-!  JSON coder model (`coders.py`).  `PyVal` is the Python value domain the
claims speak about: JSON primitives (`None`, `bool`, `int`, `str`), lists,
string-keyed dictionaries, and the special types `datetime` (to second
precision, naive), `date`, and `Decimal` (represented by its canonical
`str()` output).  `JVal` is the parsed JSON tree; `json.dumps`/`json.loads`
of a tree is modelled as the identity on trees. -/

/-- Python values handled by the JSON coder. -/
inductive PyVal where
  | pnone
  | pbool (b : Bool)
  | pint (n : Int)
  | pstr (s : String)
  | plist (xs : List PyVal)
  | pdict (kvs : List (String × PyVal))
  | pdatetime (y mo d hh mi ss : Nat)
  | pdate (y mo d : Nat)
  | pdecimal (s : String)

/-- JSON trees (the wire format between `dumps` and `loads`). -/
inductive JVal where
  | jnull
  | jbool (b : Bool)
  | jint (n : Int)
  | jstr (s : String)
  | jarr (xs : List JVal)
  | jobj (kvs : List (String × JVal))

/-- Characters of `date.isoformat()`: `YYYY-MM-DD`, zero padded. -/
def dateIsoChars (y mo d : Nat) : List Char :=
  [Nat.digitChar (y / 1000 % 10), Nat.digitChar (y / 100 % 10),
   Nat.digitChar (y / 10 % 10), Nat.digitChar (y % 10), '-',
   Nat.digitChar (mo / 10 % 10), Nat.digitChar (mo % 10), '-',
   Nat.digitChar (d / 10 % 10), Nat.digitChar (d % 10)]

/-- `date.isoformat()`. -/
def dateIso (y mo d : Nat) : String := ⟨dateIsoChars y mo d⟩

/-- `datetime.isoformat()` for a zero-microsecond naive datetime:
`YYYY-MM-DDTHH:MM:SS`. -/
def datetimeIso (y mo d hh mi ss : Nat) : String :=
  ⟨dateIsoChars y mo d ++
    ['T', Nat.digitChar (hh / 10 % 10), Nat.digitChar (hh % 10), ':',
     Nat.digitChar (mi / 10 % 10), Nat.digitChar (mi % 10), ':',
     Nat.digitChar (ss / 10 % 10), Nat.digitChar (ss % 10)]⟩

/-- Numeric value of a decimal digit character. -/
def digVal (c : Char) : Option Nat :=
  if c.isDigit then some (c.toNat - '0'.toNat) else none

/-- Two digit characters to a number. -/
def comb2 (a b : Char) : Option Nat := do
  let x ← digVal a
  let y ← digVal b
  pure (10 * x + y)

/-- Four digit characters to a number. -/
def comb4 (a b c d : Char) : Option Nat := do
  let x ← comb2 a b
  let y ← comb2 c d
  pure (100 * x + y)

/-- Range validation performed by the `datetime` constructors: Python rejects
out-of-range components with `ValueError` (days-in-month refinement beyond
`d ≤ 31` is abstracted; every value a Python `datetime` can hold passes). -/
def dtOK (y mo d hh mi ss : Nat) : Bool :=
  decide (1 ≤ y ∧ y ≤ 9999 ∧ 1 ≤ mo ∧ mo ≤ 12 ∧ 1 ≤ d ∧ d ≤ 31 ∧
    hh ≤ 23 ∧ mi ≤ 59 ∧ ss ≤ 59)

/-- `datetime.datetime.fromisoformat`, restricted to the two shapes the
coder produces: `YYYY-MM-DD` (time defaults to midnight) and
`YYYY-MM-DDTHH:MM:SS`. -/
def fromisoformat (s : String) : Option (Nat × Nat × Nat × Nat × Nat × Nat) :=
  match s.data with
  | [a, b, c, d, s1, e, f, s2, g, h2] =>
    if s1 = '-' then if s2 = '-' then do
      let y ← comb4 a b c d
      let mo ← comb2 e f
      let dd ← comb2 g h2
      if dtOK y mo dd 0 0 0 then pure (y, mo, dd, 0, 0, 0) else none
    else none else none
  | [a, b, c, d, s1, e, f, s2, g, h2, s3, i, j, s4, k, l, s5, m, n] =>
    if s1 = '-' then if s2 = '-' then if s3 = 'T' then if s4 = ':' then
    if s5 = ':' then do
      let y ← comb4 a b c d
      let mo ← comb2 e f
      let dd ← comb2 g h2
      let hh ← comb2 i j
      let mi ← comb2 k l
      let ss ← comb2 m n
      if dtOK y mo dd hh mi ss then pure (y, mo, dd, hh, mi, ss) else none
    else none else none else none else none else none
  | _ => none

/-- Grammar check standing in for `decimal.Decimal(str)` acceptance; a
canonical `str(Decimal)` printing always passes. -/
def validDecimal (s : String) : Bool :=
  s.data.all (fun c => c.isDigit || c = '-' || c = '+' || c = '.' ||
    c = 'E' || c = 'e') && s.data.any Char.isDigit

/-- `CONVERTERS["decimal"]`, i.e. `Decimal(x)`: accepts a decimal literal
string (yielding the Decimal it canonically prints as) or an int; any other
argument type raises. -/
def convDecimal (v : PyVal) : Option PyVal :=
  match v with
  | .pstr s => if validDecimal s then some (.pdecimal s) else none
  | .pint n => some (.pdecimal (toString n))
  | _ => none

/-- `CONVERTERS["date"]` (no-pendulum branch):
`datetime.datetime.fromisoformat(x).date()`. -/
def convDate (v : PyVal) : Option PyVal :=
  match v with
  | .pstr s =>
    match fromisoformat s with
    | some (y, mo, d, _, _, _) => some (.pdate y mo d)
    | none => none
  | _ => none

/-- `CONVERTERS["datetime"]` (no-pendulum branch):
`datetime.datetime.fromisoformat(x)`. -/
def convDatetime (v : PyVal) : Option PyVal :=
  match v with
  | .pstr s =>
    match fromisoformat s with
    | some (y, mo, d, hh, mi, ss) => some (.pdatetime y mo d hh mi ss)
    | none => none
  | _ => none

/-- Python truthiness of a decoded value (`if not _spec_type:`); dates and
datetimes are always truthy, a `Decimal` is falsy only when zero, which the
model approximates as truthy (the marker slot never holds a zero Decimal in
any statement below). -/
def pyTruthy : PyVal → Bool
  | .pnone => false
  | .pbool b => b
  | .pint n => !(n = 0 : Bool)
  | .pstr s => !(s = "" : Bool)
  | .plist xs => !xs.isEmpty
  | .pdict kvs => !kvs.isEmpty
  | .pdatetime _ _ _ _ _ _ => true
  | .pdate _ _ _ => true
  | .pdecimal _ => true

/-- One dictionary assignment `d[k] = v`: replace in place when the key is
present, else append. -/
def updAssoc : List (String × PyVal) → String → PyVal → List (String × PyVal)
  | [], k, v => [(k, v)]
  | (k', v') :: rest, k, v =>
    if k' = k then (k, v) :: rest else (k', v') :: updAssoc rest k v

/-- The dictionary `json.loads` builds from an object's key/value pairs, one
assignment per pair: first-occurrence position, last-occurrence value. -/
def buildDict (kvs : List (String × PyVal)) : List (String × PyVal) :=
  kvs.foldl (fun acc p => updAssoc acc p.1 p.2) []

/-- `dict.get` on the (deduplicated) object dictionary. -/
def objGet : List (String × PyVal) → String → Option PyVal
  | [], _ => none
  | (k', v) :: rest, k => if k' = k then some v else objGet rest k

/-- `coders.object_hook`: pass plain dictionaries through; a truthy
`_spec_type` selects a converter applied to `obj["val"]` (a missing `val`
is a `KeyError`, an unknown marker a `TypeError`, both modelled as `none`). -/
def object_hook (kvs : List (String × PyVal)) : Option PyVal :=
  let d := buildDict kvs
  match objGet d "_spec_type" with
  | none => some (.pdict d)
  | some t =>
    if pyTruthy t then
      match t with
      | .pstr "decimal" => (objGet d "val").bind convDecimal
      | .pstr "date" => (objGet d "val").bind convDate
      | .pstr "datetime" => (objGet d "val").bind convDatetime
      | _ => none
    else some (.pdict d)

namespace JsonCoder

mutual

/-- `json.dumps(value, cls=JsonEncoder)` as a tree: primitives, lists and
dictionaries serialize natively; `JsonEncoder.default` turns the special
types into `{"val": ..., "_spec_type": ...}` objects. -/
def encode : PyVal → JVal
  | .pnone => .jnull
  | .pbool b => .jbool b
  | .pint n => .jint n
  | .pstr s => .jstr s
  | .plist xs => .jarr (encodeList xs)
  | .pdict kvs => .jobj (encodeObj kvs)
  | .pdatetime y mo d hh mi ss =>
    .jobj [("val", .jstr (datetimeIso y mo d hh mi ss)), ("_spec_type", .jstr "datetime")]
  | .pdate y mo d =>
    .jobj [("val", .jstr (dateIso y mo d)), ("_spec_type", .jstr "date")]
  | .pdecimal s =>
    .jobj [("val", .jstr s), ("_spec_type", .jstr "decimal")]

/-- Elementwise encoding of a list. -/
def encodeList : List PyVal → List JVal
  | [] => []
  | x :: xs => encode x :: encodeList xs

/-- Elementwise encoding of a dictionary's values. -/
def encodeObj : List (String × PyVal) → List (String × JVal)
  | [] => []
  | (k, v) :: rest => (k, encode v) :: encodeObj rest

end

mutual

/-- `json.loads(..., object_hook=object_hook)` on a tree: decode bottom-up,
passing every object through `object_hook`; `none` models a raised
decoding error. -/
def decode : JVal → Option PyVal
  | .jnull => some .pnone
  | .jbool b => some (.pbool b)
  | .jint n => some (.pint n)
  | .jstr s => some (.pstr s)
  | .jarr xs => (decodeList xs).map .plist
  | .jobj kvs => (decodeObj kvs).bind object_hook

/-- Elementwise decoding of an array. -/
def decodeList : List JVal → Option (List PyVal)
  | [] => some []
  | x :: xs => do
    let v ← decode x
    let vs ← decodeList xs
    pure (v :: vs)

/-- Elementwise decoding of an object's values. -/
def decodeObj : List (String × JVal) → Option (List (String × PyVal))
  | [] => some []
  | (k, x) :: rest => do
    let v ← decode x
    let vs ← decodeObj rest
    pure ((k, v) :: vs)

end

end JsonCoder

/-!  Cache-aside decorator model (`decorators.py` lines 57-115) together with
the configuration a `CacheManager` holds (`manager.py`).  The backend a
manager owns is abstracted to the two operations the decorator uses, over a
backend-state type `σ`; an `Except Unit` result models a raised backend
exception.  Cached bytes are JSON trees (`JVal`), matching the JSON coder.
The wrapped callable is a unary function on `Nat` with an invocation counter
threaded through (so that "the original callable was invoked" is observable),
which may raise an error of type `ε`.  A key builder is modelled as a
function from the namespace argument and the call argument to a string key
(the default builder's md5 digest is one concrete such function; the claims
depend only on the builder being deterministic). -/

/-- Backend operations used by the decorator; `.error` models a raised
exception (on which the caller keeps its previous view of the state). -/
structure BackendM (σ : Type) where
  get_with_ttl : σ → String → Nat → Except Unit ((Nat × Option JVal) × σ)
  set : σ → String → JVal → Nat → Nat → Except Unit σ

/-- Configuration of a `CacheManager` instance: prefix, default expiration,
default coder (encode/decode pair), default key builder, and the owned
backend. -/
structure Manager (σ : Type) where
  pfx : String
  expire : Nat
  coder_enc : PyVal → JVal
  coder_dec : JVal → Option PyVal
  key_builder : String → Nat → String
  backend : BackendM σ

/-- Arguments fixed at the decorator site that the closure never reassigns:
`coder`, `namespace`, `cache_manager`. -/
structure DecoSite (σ : Type) where
  coder? : Option ((PyVal → JVal) × (JVal → Option PyVal))
  ns : String
  manager? : Option (Manager σ)

/-- The `nonlocal` closure cells the decorator reassigns on every call:
`expire` and `key_builder`. -/
structure DecoCells where
  expire? : Option Nat
  key_builder? : Option (String → Nat → String)

/-- Errors surfaced by a decorated call: the `RuntimeError` raised when no
manager is configured, an error raised by the wrapped callable itself
(propagated untouched), or a coder failure while decoding a hit. -/
inductive CacheErr (ε : Type) where
  | notConfigured
  | userErr (e : ε)
  | decodeErr
deriving DecidableEq

/-- `manager = cache_manager or CacheManager.get_instance()` (a manager
instance is always truthy). -/
def resolveManager {σ : Type} (site : DecoSite σ) (global? : Option (Manager σ)) :
    Option (Manager σ) :=
  match site.manager? with
  | some m => some m
  | none => global?

/-- `actual_coder = coder() if coder else manager.get_coder()`, encode half. -/
def actualEnc {σ : Type} (site : DecoSite σ) (mgr : Manager σ) : PyVal → JVal :=
  match site.coder? with
  | some c => c.1
  | none => mgr.coder_enc

/-- `actual_coder = coder() if coder else manager.get_coder()`, decode half. -/
def actualDec {σ : Type} (site : DecoSite σ) (mgr : Manager σ) : JVal → Option PyVal :=
  match site.coder? with
  | some c => c.2
  | none => mgr.coder_dec

/-- `expire = expire or manager.get_expire()` (Python truthiness: both `None`
and `0` fall back to the manager's default). -/
def effExpire {σ : Type} (cells : DecoCells) (mgr : Manager σ) : Nat :=
  pyOrNat cells.expire? mgr.expire

/-- `key_builder = key_builder or manager.get_key_builder()` (a function is
always truthy). -/
def effKB {σ : Type} (cells : DecoCells) (mgr : Manager σ) : String → Nat → String :=
  match cells.key_builder? with
  | some kb => kb
  | none => mgr.key_builder

/-- Namespace argument passed to the key builder:
`f"{prefix}:{namespace}" if namespace else prefix`. -/
def nsArg {σ : Type} (site : DecoSite σ) (mgr : Manager σ) : String :=
  if site.ns = "" then mgr.pfx else mgr.pfx ++ ":" ++ site.ns

/-- The cache key built for a call. -/
def cacheKey {σ : Type} (site : DecoSite σ) (mgr : Manager σ) (cells : DecoCells)
    (arg : Nat) : String :=
  effKB cells mgr (nsArg site mgr) arg

/-- `try: ttl, cached = await backend.get_with_ttl(...) except: ttl, cached
= 0, None` — a raised read is logged and treated as a miss. -/
def getStep {σ : Type} (B : BackendM σ) (st : σ) (key : String) (now : Nat) :
    (Nat × Option JVal) × σ :=
  match B.get_with_ttl st key now with
  | .ok r => r
  | .error _ => ((0, none), st)

/-- `try: await backend.set(...) except: pass` — a raised write is logged
and ignored. -/
def setStep {σ : Type} (B : BackendM σ) (st : σ) (key : String) (v : JVal)
    (expire now : Nat) : σ :=
  match B.set st key v expire now with
  | .ok s => s
  | .error _ => st

/-- The decorator's `inner` coroutine for one invocation at time `now` with
argument `arg`: resolve the manager (raising `notConfigured` when there is
none), resolve and write back the closure cells, build the key, attempt the
cached read, and either decode the hit or invoke the wrapped callable and
attempt to store its encoded result.  Returns the outcome together with the
closure cells, the backend state, and the callable's invocation counter. -/
def inner {σ ε : Type} (site : DecoSite σ) (global? : Option (Manager σ))
    (func : Nat → Nat → Except ε PyVal × Nat)
    (cells : DecoCells) (st : σ) (cnt now arg : Nat) :
    Except (CacheErr ε) PyVal × DecoCells × σ × Nat :=
  match resolveManager site global? with
  | none => (.error .notConfigured, cells, st, cnt)
  | some mgr =>
    let cells' : DecoCells := ⟨some (effExpire cells mgr), some (effKB cells mgr)⟩
    let key := cacheKey site mgr cells arg
    let gs := getStep mgr.backend st key now
    match gs.1.2 with
    | none =>
      match func arg cnt with
      | (.error e, cnt') => (.error (.userErr e), cells', gs.2, cnt')
      | (.ok result, cnt') =>
        (.ok result, cells',
          setStep mgr.backend gs.2 key (actualEnc site mgr result)
            (effExpire cells mgr) now, cnt')
    | some c =>
      match actualDec site mgr c with
      | some v => (.ok v, cells', gs.2, cnt)
      | none => (.error .decodeErr, cells', gs.2, cnt)

/-- The in-memory backend plugged into the decorator's backend interface
(its operations never raise). -/
def inmemB : BackendM (Store JVal) where
  get_with_ttl := fun st k now => .ok (InMemoryBackend.get_with_ttl st k now)
  set := fun st k v e now => .ok (InMemoryBackend.set st k v (some e) now)

/-- A concrete deterministic key builder distinguishing call arguments
(stands in for `default_key_builder`'s md5 digest, which the claims use only
as a deterministic argument-separating key). -/
def kbArg (ns : String) (arg : Nat) : String := ns ++ ":" ++ toString arg

/-- A manager as produced by `CacheManager.init(backend=InMemoryBackend(),
coder=JsonCoder)` with the given prefix and default expiration. -/
def jsonMgr (pfx : String) (expire : Nat) : Manager (Store JVal) where
  pfx := pfx
  expire := expire
  coder_enc := JsonCoder.encode
  coder_dec := JsonCoder.decode
  key_builder := kbArg
  backend := inmemB

/-- Decorator site with all-default arguments (`@cache()`). -/
def siteDefault : DecoSite (Store JVal) where
  coder? := none
  ns := ""
  manager? := none

/-- Fresh closure cells as they are at decoration time with no `expire` or
`key_builder` overrides. -/
def cells0 : DecoCells := ⟨none, none⟩

/-- The spec's counting function `f(x) = {count += 1; return x*2}`. -/
def countingF (x cnt : Nat) : Except Empty PyVal × Nat :=
  (.ok (.pint (2 * x)), cnt + 1)

/-- A wrapped callable that increments its counter and then raises. -/
def raisingF (_x cnt : Nat) : Except Unit PyVal × Nat :=
  (.error (), cnt + 1)

/-- Closure cells of a decorator applied with an explicit `expire=0`. -/
def cellsExp0 : DecoCells := ⟨some 0, none⟩

/-- A backend whose read always raises (e.g. lost connectivity) and whose
write is the in-memory one. -/
def failGetB : BackendM (Store JVal) where
  get_with_ttl := fun _ _ _ => .error ()
  set := fun st k v e now => .ok (InMemoryBackend.set st k v (some e) now)

/-- A backend whose read is the in-memory one and whose write always raises. -/
def failSetB : BackendM (Store JVal) where
  get_with_ttl := fun st k now => .ok (InMemoryBackend.get_with_ttl st k now)
  set := fun _ _ _ _ _ => .error ()

/-- A JSON-coder manager owning the read-failing backend. -/
def mgrFailGet : Manager (Store JVal) := { jsonMgr "use-cache:" 600 with backend := failGetB }

/-- A JSON-coder manager owning the write-failing backend. -/
def mgrFailSet : Manager (Store JVal) := { jsonMgr "use-cache:" 600 with backend := failSetB }

/-- Distinctness of the keys of a Python dictionary's pair list (an actual
`dict` always satisfies it). -/
def distinctKeysKV : List (String × PyVal) → Bool
  | [] => true
  | (k, _) :: rest => (rest.all fun p => !(p.1 = k : Bool)) && distinctKeysKV rest

mutual

/-- Well-formedness of a `PyVal` as an actual Python value: dictionaries
have distinct keys, `datetime`/`date` components are in range, a `Decimal`'s
representation is a valid decimal literal. -/
def wfPy : PyVal → Bool
  | .pnone => true
  | .pbool _ => true
  | .pint _ => true
  | .pstr _ => true
  | .plist xs => wfList xs
  | .pdict kvs => distinctKeysKV kvs && wfObj kvs
  | .pdatetime y mo d hh mi ss => dtOK y mo d hh mi ss
  | .pdate y mo d => dtOK y mo d 0 0 0
  | .pdecimal s => validDecimal s

/-- `wfPy` on every element of a list. -/
def wfList : List PyVal → Bool
  | [] => true
  | x :: xs => wfPy x && wfList xs

/-- `wfPy` on every value of a dictionary. -/
def wfObj : List (String × PyVal) → Bool
  | [] => true
  | (_, v) :: rest => wfPy v && wfObj rest

end

mutual

/-- No dictionary anywhere in the value uses the reserved key
`"_spec_type"` (the marker the JSON encoder claims for special types). -/
def noMarker : PyVal → Bool
  | .plist xs => noMarkerList xs
  | .pdict kvs => (kvs.all fun p => !(p.1 = "_spec_type" : Bool)) && noMarkerObj kvs
  | _ => true

/-- `noMarker` on every element of a list. -/
def noMarkerList : List PyVal → Bool
  | [] => true
  | x :: xs => noMarker x && noMarkerList xs

/-- `noMarker` on every value of a dictionary. -/
def noMarkerObj : List (String × PyVal) → Bool
  | [] => true
  | (_, v) :: rest => noMarker v && noMarkerObj rest

end

/-!  Helper lemmas. -/

theorem pyOrNat_some_zero_right (e : Nat) : pyOrNat (some e) 0 = e := by
  by_cases h : e = 0 <;> simp [pyOrNat, h]

theorem lookup_setKV {α : Type} (st : Store α) (k : String) (v : Value α) :
    lookupStore (setKV st k v) k = some v := by
  induction st with
  | nil => simp [setKV, lookupStore]
  | cons p rest ih =>
    obtain ⟨k', v'⟩ := p
    by_cases h : k' = k
    · simp [setKV, lookupStore, h]
    · simp [setKV, lookupStore, h, ih]

theorem get_with_ttl_lookup_none {α : Type} (st : Store α) (key : String) (now : Nat)
    (h : lookupStore st key = none) :
    InMemoryBackend.get_with_ttl st key now = ((0, none), st) := by
  simp [InMemoryBackend.get_with_ttl, InMemoryBackend.getAux, h]

theorem get_with_ttl_expired {α : Type} (st : Store α) (key : String) (now : Nat)
    (v : Value α) (hl : lookupStore st key = some v) (he : v.ttl_ts < now) :
    InMemoryBackend.get_with_ttl st key now = ((0, none), delKV st key) := by
  simp [InMemoryBackend.get_with_ttl, InMemoryBackend.getAux, hl, he]

theorem get_with_ttl_live {α : Type} (st : Store α) (key : String) (now : Nat)
    (v : Value α) (hl : lookupStore st key = some v) (he : now ≤ v.ttl_ts) :
    InMemoryBackend.get_with_ttl st key now = ((v.ttl_ts - now, some v.data), st) := by
  simp [InMemoryBackend.get_with_ttl, InMemoryBackend.getAux, hl, Nat.not_lt.mpr he]

theorem digVal_digitChar (k : Nat) (h : k < 10) : digVal (Nat.digitChar k) = some k := by
  interval_cases k <;> rfl

theorem comb2_digits (a : Nat) (h : a ≤ 99) :
    comb2 (Nat.digitChar (a / 10 % 10)) (Nat.digitChar (a % 10)) = some a := by
  have h1 := digVal_digitChar (a / 10 % 10) (by omega)
  have h2 := digVal_digitChar (a % 10) (by omega)
  simp [comb2, h1, h2]
  omega

theorem comb4_digits (y : Nat) (h : y ≤ 9999) :
    comb4 (Nat.digitChar (y / 1000 % 10)) (Nat.digitChar (y / 100 % 10))
      (Nat.digitChar (y / 10 % 10)) (Nat.digitChar (y % 10)) = some y := by
  have h1 := digVal_digitChar (y / 1000 % 10) (by omega)
  have h2 := digVal_digitChar (y / 100 % 10) (by omega)
  have h3 := digVal_digitChar (y / 10 % 10) (by omega)
  have h4 := digVal_digitChar (y % 10) (by omega)
  simp [comb4, comb2, h1, h2, h3, h4]
  omega

theorem fromisoformat_dateIso (y mo d : Nat) (h : dtOK y mo d 0 0 0 = true) :
    fromisoformat (dateIso y mo d) = some (y, mo, d, 0, 0, 0) := by
  have hb : 1 ≤ y ∧ y ≤ 9999 ∧ 1 ≤ mo ∧ mo ≤ 12 ∧ 1 ≤ d ∧ d ≤ 31 := by
    simpa [dtOK] using h
  obtain ⟨hy1, hy2, hm1, hm2, hd1, hd2⟩ := hb
  show fromisoformat ⟨dateIsoChars y mo d⟩ = _
  rw [fromisoformat]
  simp [dateIsoChars, comb4_digits y (by omega), comb2_digits mo (by omega),
    comb2_digits d (by omega), h]

theorem fromisoformat_datetimeIso (y mo d hh mi ss : Nat)
    (h : dtOK y mo d hh mi ss = true) :
    fromisoformat (datetimeIso y mo d hh mi ss) = some (y, mo, d, hh, mi, ss) := by
  have hb : 1 ≤ y ∧ y ≤ 9999 ∧ 1 ≤ mo ∧ mo ≤ 12 ∧ 1 ≤ d ∧ d ≤ 31 ∧
      hh ≤ 23 ∧ mi ≤ 59 ∧ ss ≤ 59 := by simpa [dtOK] using h
  obtain ⟨hy1, hy2, hm1, hm2, hd1, hd2, hh1, hi1, hs1⟩ := hb
  show fromisoformat ⟨dateIsoChars y mo d ++ _⟩ = _
  rw [fromisoformat]
  simp [dateIsoChars, comb4_digits y (by omega), comb2_digits mo (by omega),
    comb2_digits d (by omega), comb2_digits hh (by omega),
    comb2_digits mi (by omega), comb2_digits ss (by omega), h]

theorem updAssoc_absent (acc : List (String × PyVal)) (k : String) (v : PyVal)
    (h : ∀ q ∈ acc, q.1 ≠ k) : updAssoc acc k v = acc ++ [(k, v)] := by
  induction acc with
  | nil => rfl
  | cons q rest ih =>
    have hq : q.1 ≠ k := h q (List.mem_cons_self q rest)
    obtain ⟨k', v'⟩ := q
    simp only [updAssoc, if_neg hq]
    rw [ih (fun p hp => h p (List.mem_cons_of_mem _ hp))]
    simp

theorem foldl_upd_eq_append (kvs acc : List (String × PyVal))
    (hd : distinctKeysKV kvs = true)
    (hdisj : ∀ p ∈ kvs, ∀ q ∈ acc, q.1 ≠ p.1) :
    List.foldl (fun acc p => updAssoc acc p.1 p.2) acc kvs = acc ++ kvs := by
  induction kvs generalizing acc with
  | nil => simp
  | cons p rest ih =>
    obtain ⟨k, v⟩ := p
    have hd' : (rest.all fun p => !(p.1 = k : Bool)) = true ∧ distinctKeysKV rest = true := by
      simpa [distinctKeysKV, Bool.and_eq_true] using hd
    have hrest : ∀ p ∈ rest, p.1 ≠ k := by
      intro p hp
      have := List.all_eq_true.mp hd'.1 p hp
      simpa using this
    simp only [List.foldl_cons]
    rw [updAssoc_absent acc k v (fun q hq => hdisj (k, v) (List.mem_cons_self _ _) q hq)]
    have hdisj' : ∀ p ∈ rest, ∀ q ∈ acc ++ [(k, v)], q.1 ≠ p.1 := by
      intro p hp q hq
      rcases List.mem_append.mp hq with hq | hq
      · exact hdisj p (List.mem_cons_of_mem _ hp) q hq
      · simp at hq
        subst hq
        exact fun hc => hrest p hp hc.symm
    rw [ih (acc ++ [(k, v)]) hd'.2 hdisj']
    simp

theorem buildDict_eq_self (kvs : List (String × PyVal))
    (hd : distinctKeysKV kvs = true) : buildDict kvs = kvs := by
  have := foldl_upd_eq_append kvs [] hd (by simp)
  simpa [buildDict] using this

theorem objGet_absent (l : List (String × PyVal)) (k : String)
    (h : ∀ p ∈ l, p.1 ≠ k) : objGet l k = none := by
  induction l with
  | nil => rfl
  | cons p rest ih =>
    obtain ⟨k', v⟩ := p
    have : k' ≠ k := h (k', v) (List.mem_cons_self _ _)
    simp only [objGet, if_neg this]
    exact ih fun p hp => h p (List.mem_cons_of_mem _ hp)

/-- Behavior of one decorated call on the miss path: the wrapped callable
runs, its error (if any) propagates, and on success its encoded result is
offered to the backend with the resolved expiration. -/
theorem inner_eq_miss {σ ε : Type} (site : DecoSite σ) (global? : Option (Manager σ))
    (func : Nat → Nat → Except ε PyVal × Nat) (cells : DecoCells) (st : σ)
    (cnt now arg : Nat) (mgr : Manager σ)
    (hm : resolveManager site global? = some mgr)
    (hmiss : (getStep mgr.backend st (cacheKey site mgr cells arg) now).1.2 = none) :
    inner site global? func cells st cnt now arg =
      (match func arg cnt with
        | (.error e, cnt') =>
          (.error (.userErr e), ⟨some (effExpire cells mgr), some (effKB cells mgr)⟩,
            (getStep mgr.backend st (cacheKey site mgr cells arg) now).2, cnt')
        | (.ok result, cnt') =>
          (.ok result, ⟨some (effExpire cells mgr), some (effKB cells mgr)⟩,
            setStep mgr.backend (getStep mgr.backend st (cacheKey site mgr cells arg) now).2
              (cacheKey site mgr cells arg) (actualEnc site mgr result)
              (effExpire cells mgr) now, cnt')) := by
  rw [inner, hm]
  simp only [hmiss]

/-- Behavior of one decorated call on the hit path: the cached bytes are
decoded with the per-call resolved coder and the callable is not invoked. -/
theorem inner_eq_hit {σ ε : Type} (site : DecoSite σ) (global? : Option (Manager σ))
    (func : Nat → Nat → Except ε PyVal × Nat) (cells : DecoCells) (st : σ)
    (cnt now arg : Nat) (mgr : Manager σ) (c : JVal)
    (hm : resolveManager site global? = some mgr)
    (hhit : (getStep mgr.backend st (cacheKey site mgr cells arg) now).1.2 = some c) :
    inner site global? func cells st cnt now arg =
      (match actualDec site mgr c with
        | some v =>
          (.ok v, ⟨some (effExpire cells mgr), some (effKB cells mgr)⟩,
            (getStep mgr.backend st (cacheKey site mgr cells arg) now).2, cnt)
        | none =>
          (.error .decodeErr, ⟨some (effExpire cells mgr), some (effKB cells mgr)⟩,
            (getStep mgr.backend st (cacheKey site mgr cells arg) now).2, cnt)) := by
  rw [inner, hm]
  simp only [hhit]

mutual

/-- Round trip of the JSON coder on well-formed marker-free values. -/
theorem decode_encode : ∀ (v : PyVal), wfPy v = true → noMarker v = true →
    JsonCoder.decode (JsonCoder.encode v) = some v
  | .pnone, _, _ => rfl
  | .pbool _, _, _ => rfl
  | .pint _, _, _ => rfl
  | .pstr _, _, _ => rfl
  | .plist xs, hw, hm => by
    have h := decode_encodeList xs hw hm
    simp [JsonCoder.encode, JsonCoder.decode, h]
  | .pdict kvs, hw, hm => by
    have hw' : distinctKeysKV kvs = true ∧ wfObj kvs = true := by
      simpa [wfPy, Bool.and_eq_true] using hw
    have hm' : (kvs.all fun p => !(p.1 = "_spec_type" : Bool)) = true ∧
        noMarkerObj kvs = true := by
      simpa [noMarker, Bool.and_eq_true] using hm
    have h := decode_encodeObj kvs hw'.2 hm'.2
    have hnone : objGet kvs "_spec_type" = none := by
      refine objGet_absent _ _ ?_
      intro p hp
      have := List.all_eq_true.mp hm'.1 p hp
      simpa using this
    simp [JsonCoder.encode, JsonCoder.decode, h, object_hook,
      buildDict_eq_self kvs hw'.1, hnone]
  | .pdatetime y mo d hh mi ss, hw, _ => by
    have hiso := fromisoformat_datetimeIso y mo d hh mi ss hw
    show convDatetime (.pstr (datetimeIso y mo d hh mi ss)) = _
    simp [convDatetime, hiso]
  | .pdate y mo d, hw, _ => by
    have hiso := fromisoformat_dateIso y mo d hw
    show convDate (.pstr (dateIso y mo d)) = _
    simp [convDate, hiso]
  | .pdecimal s, hw, _ => by
    have hv : validDecimal s = true := hw
    show convDecimal (.pstr s) = _
    simp [convDecimal, hv]

/-- Elementwise round trip for lists. -/
theorem decode_encodeList : ∀ (xs : List PyVal), wfList xs = true → noMarkerList xs = true →
    JsonCoder.decodeList (JsonCoder.encodeList xs) = some xs
  | [], _, _ => rfl
  | x :: xs, hw, hm => by
    have hw' : wfPy x = true ∧ wfList xs = true := by
      simpa [wfList, Bool.and_eq_true] using hw
    have hm' : noMarker x = true ∧ noMarkerList xs = true := by
      simpa [noMarkerList, Bool.and_eq_true] using hm
    have h1 := decode_encode x hw'.1 hm'.1
    have h2 := decode_encodeList xs hw'.2 hm'.2
    simp [JsonCoder.encodeList, JsonCoder.decodeList, h1, h2]

/-- Elementwise round trip for dictionary values. -/
theorem decode_encodeObj : ∀ (kvs : List (String × PyVal)), wfObj kvs = true →
    noMarkerObj kvs = true →
    JsonCoder.decodeObj (JsonCoder.encodeObj kvs) = some kvs
  | [], _, _ => rfl
  | (k, v) :: rest, hw, hm => by
    have hw' : wfPy v = true ∧ wfObj rest = true := by
      simpa [wfObj, Bool.and_eq_true] using hw
    have hm' : noMarker v = true ∧ noMarkerObj rest = true := by
      simpa [noMarkerObj, Bool.and_eq_true] using hm
    have h1 := decode_encode v hw'.1 hm'.1
    have h2 := decode_encodeObj rest hw'.2 hm'.2
    simp [JsonCoder.encodeObj, JsonCoder.decodeObj, h1, h2]

end

/-- Resolved closure cells are written back on every call that finds a
manager, whichever path the call then takes. -/
theorem inner_cells {σ ε : Type} (site : DecoSite σ) (global? : Option (Manager σ))
    (func : Nat → Nat → Except ε PyVal × Nat) (cells : DecoCells) (st : σ)
    (cnt now arg : Nat) (mgr : Manager σ)
    (hres : resolveManager site global? = some mgr) :
    (inner site global? func cells st cnt now arg).2.1
      = ⟨some (effExpire cells mgr), some (effKB cells mgr)⟩ := by
  rcases hgs : (getStep mgr.backend st (cacheKey site mgr cells arg) now).1.2 with _ | c
  · rcases hf : func arg cnt with ⟨r, cnt'⟩
    cases r
    all_goals rw [inner_eq_miss site global? func cells st cnt now arg mgr hres hgs, hf]
  · rw [inner_eq_hit site global? func cells st cnt now arg mgr c hres hgs]
    cases hd : actualDec site mgr c <;> simp [hd]

/-!  Claim theorems. -/

/-- Claim C1: wrapping the counting function `f(x) = {count += 1; return
x*2}` with the cache decorator, under an initialized manager using the
in-memory backend and the JSON coder, calling `f(5)` twice returns `10`
both times while the counter increments only once (the second call is
served from the cache), and a subsequent `f(10)` returns `20` and
increments the counter to 2. -/
theorem c1_decorator_cache_then_reuse :
    (inner siteDefault (some (jsonMgr "use-cache:" 600)) countingF cells0
        ([] : Store JVal) 0 1000 5).1 = .ok (.pint 10) ∧
    (inner siteDefault (some (jsonMgr "use-cache:" 600)) countingF cells0
        ([] : Store JVal) 0 1000 5).2.2.2 = 1 ∧
    (let r1 := inner siteDefault (some (jsonMgr "use-cache:" 600)) countingF cells0
        ([] : Store JVal) 0 1000 5
     let r2 := inner siteDefault (some (jsonMgr "use-cache:" 600)) countingF
        r1.2.1 r1.2.2.1 r1.2.2.2 1001 5
     r2.1 = .ok (.pint 10) ∧ r2.2.2.2 = 1 ∧
     (let r3 := inner siteDefault (some (jsonMgr "use-cache:" 600)) countingF
        r2.2.1 r2.2.2.1 r2.2.2.2 1002 10
      r3.1 = .ok (.pint 20) ∧ r3.2.2.2 = 2)) :=
  ⟨rfl, rfl, rfl, rfl, rfl, rfl⟩

/-- Claim C3: with no decorator-site manager and no process-wide active
manager, a decorated call fails with the distinguishable not-configured
error; the equality holds for every wrapped callable and backend state and
leaves closure, backend state and counter untouched, so the wrapped
function is not invoked and no backend access occurs. -/
theorem c3_not_configured : ∀ (σ ε : Type) (site : DecoSite σ)
    (func : Nat → Nat → Except ε PyVal × Nat) (cells : DecoCells) (st : σ)
    (cnt now arg : Nat), site.manager? = none →
    inner site none func cells st cnt now arg
      = (.error .notConfigured, cells, st, cnt) := by
  intro σ ε site func cells st cnt now arg hsite
  rw [inner]
  simp [resolveManager, hsite]

/-- Witness for claim C3 at a concrete call. -/
theorem c3_witness :
    siteDefault.manager? = none ∧
    inner siteDefault none countingF cells0 ([] : Store JVal) 3 1000 5
      = (.error .notConfigured, cells0, [], 3) :=
  ⟨rfl, c3_not_configured (Store JVal) Empty siteDefault countingF cells0 [] 3 1000 5 rfl⟩

/-- Claim C5 counterexample: an entry stored with no expiration at time 100
is successfully read at time 100 and then successfully read again from the
resulting store at time 100 — the second access neither reports it absent
nor deletes it, refuting read-exactly-once-then-expired as stated. -/
theorem c5_counterexample :
    (InMemoryBackend.get
        (InMemoryBackend.set ([] : Store String) "k" "v" none 100) "k" 100).1
      = some "v" ∧
    (InMemoryBackend.get
        (InMemoryBackend.get
          (InMemoryBackend.set ([] : Store String) "k" "v" none 100) "k" 100).2
        "k" 100).1 = some "v" ∧
    ¬ ((InMemoryBackend.get
        (InMemoryBackend.get
          (InMemoryBackend.set ([] : Store String) "k" "v" none 100) "k" 100).2
        "k" 100).1 = none) := by decide

/-- Claim C5 amended: a set with no (or zero) expiration stores an entry
whose expiry timestamp is the set time (`now + 0`); every read at a time up
to and including that timestamp succeeds (so the entry can be read more
than once within the same second), and the first read at a strictly later
time treats it as expired: it returns absent and deletes the entry. -/
theorem c5_amended : ∀ (α : Type) (st : Store α) (key : String) (v : α) (t tr : Nat),
    lookupStore (InMemoryBackend.set st key v none t) key = some ⟨v, t⟩ ∧
    (tr ≤ t → InMemoryBackend.get (InMemoryBackend.set st key v none t) key tr
        = (some v, InMemoryBackend.set st key v none t)) ∧
    (t < tr → InMemoryBackend.get (InMemoryBackend.set st key v none t) key tr
        = (none, delKV (InMemoryBackend.set st key v none t) key)) := by
  intro α st key v t tr
  have hl : lookupStore (InMemoryBackend.set st key v none t) key = some ⟨v, t⟩ := by
    simpa [InMemoryBackend.set, pyOrNat] using lookup_setKV st key ⟨v, t + 0⟩
  refine ⟨hl, ?_, ?_⟩
  · intro h
    simp [InMemoryBackend.get, InMemoryBackend.getAux, hl, Nat.not_lt.mpr h]
  · intro h
    simp [InMemoryBackend.get, InMemoryBackend.getAux, hl, h]

/-- Witness for claim C5 at a concrete store and times. -/
theorem c5_witness :
    lookupStore (InMemoryBackend.set ([] : Store String) "k" "v" none 100) "k"
      = some ⟨"v", 100⟩ ∧
    InMemoryBackend.get (InMemoryBackend.set ([] : Store String) "k" "v" none 100) "k" 100
      = (some "v", InMemoryBackend.set ([] : Store String) "k" "v" none 100) ∧
    InMemoryBackend.get (InMemoryBackend.set ([] : Store String) "k" "v" none 100) "k" 101
      = (none, delKV (InMemoryBackend.set ([] : Store String) "k" "v" none 100) "k") :=
  ⟨(c5_amended String [] "k" "v" 100 100).1,
   (c5_amended String [] "k" "v" 100 100).2.1 (by decide),
   (c5_amended String [] "k" "v" 100 101).2.2 (by decide)⟩

/-- Claim C6 counterexample: an entry whose expiry timestamp equals the
current time (`expires_at <= now` with equality) is not removed — the read
returns the value rather than absent, and the reported remaining TTL is 0,
not a positive integer. -/
theorem c6_counterexample :
    InMemoryBackend.get_with_ttl ([("k", ⟨"v", 100⟩)] : Store String) "k" 100
      = ((0, some "v"), [("k", ⟨"v", 100⟩)]) ∧
    ¬ ((InMemoryBackend.get_with_ttl ([("k", ⟨"v", 100⟩)] : Store String) "k" 100).1.2
        = none) ∧
    ¬ (0 < (InMemoryBackend.get_with_ttl ([("k", ⟨"v", 100⟩)] : Store String) "k" 100).1.1) := by
  decide

/-- Claim C6 amended: an entry is removed exactly when a read observes
`expires_at < now` (strictly); `get_with_ttl` returns `(0, absent)` when
there is no entry at all and `(0, absent)` while deleting when the entry is
strictly expired; whenever it returns a value the reported remaining TTL is
`expires_at - now`, a nonnegative integer that is 0 at the boundary
`expires_at = now`. -/
theorem c6_amended : ∀ (α : Type) (st : Store α) (key : String) (now : Nat),
    (lookupStore st key = none →
      InMemoryBackend.get_with_ttl st key now = ((0, none), st)) ∧
    (∀ v : Value α, lookupStore st key = some v → v.ttl_ts < now →
      InMemoryBackend.get_with_ttl st key now = ((0, none), delKV st key)) ∧
    (∀ v : Value α, lookupStore st key = some v → now ≤ v.ttl_ts →
      InMemoryBackend.get_with_ttl st key now = ((v.ttl_ts - now, some v.data), st)) :=
  fun _α st key now =>
    ⟨fun h => get_with_ttl_lookup_none st key now h,
     fun v hl he => get_with_ttl_expired st key now v hl he,
     fun v hl he => get_with_ttl_live st key now v hl he⟩

/-- Witness for claim C6 at concrete stores. -/
theorem c6_witness :
    InMemoryBackend.get_with_ttl ([] : Store String) "k" 5 = ((0, none), []) ∧
    InMemoryBackend.get_with_ttl ([("k", ⟨"v", 100⟩)] : Store String) "k" 101
      = ((0, none), delKV [("k", ⟨"v", 100⟩)] "k") ∧
    InMemoryBackend.get_with_ttl ([("k", ⟨"v", 100⟩)] : Store String) "k" 40
      = ((100 - 40, some "v"), [("k", ⟨"v", 100⟩)]) :=
  ⟨(c6_amended String [] "k" 5).1 rfl,
   (c6_amended String [("k", ⟨"v", 100⟩)] "k" 101).2.1 ⟨"v", 100⟩ rfl (by decide),
   (c6_amended String [("k", ⟨"v", 100⟩)] "k" 40).2.2 ⟨"v", 100⟩ rfl (by decide)⟩

/-- Claim C8 counterexample: `clear(key="")` on a store holding one entry
`"a"` falls through Python's truthiness check into the full-flush branch —
it removes the unrelated entry and returns 1, where the claim requires
removing only the entry `""` (absent) and returning 0. -/
theorem c8_counterexample :
    InMemoryBackend.clear ([("a", ⟨"v", 100⟩)] : Store String) none (some "") = (1, []) ∧
    ¬ ((InMemoryBackend.clear ([("a", ⟨"v", 100⟩)] : Store String) none (some "")).1 = 0) := by
  decide

/-- Claim C8 amended: with keys `ns1:a`, `ns1:b`, `ns2:a` set,
`clear(namespace="ns1")` removes exactly the two `ns1`-prefixed entries and
returns 2; `clear(key=k)` for a nonempty `k` removes the single entry `k`
and returns 1 if present, else 0 (an empty-string `k` is falsy and falls
through to the full flush); `clear` with neither argument empties the store
and returns its former size. -/
theorem c8_amended :
    InMemoryBackend.clear
        ([("ns1:a", ⟨"va", 100⟩), ("ns1:b", ⟨"vb", 100⟩), ("ns2:a", ⟨"vc", 100⟩)] : Store String)
        (some "ns1") none = (2, [("ns2:a", ⟨"vc", 100⟩)]) ∧
    (∀ (α : Type) (st : Store α) (k : String), k ≠ "" →
      InMemoryBackend.clear st none (some k)
        = ((if (lookupStore st k).isSome then 1 else 0), delKV st k)) ∧
    (∀ (α : Type) (st : Store α),
      InMemoryBackend.clear st none none = (st.length, [])) := by
  refine ⟨by decide, ?_, ?_⟩
  · intro α st k hk
    simp [InMemoryBackend.clear, InMemoryBackend.strTruthy, hk]
  · intro α st
    rfl

/-- Witness for claim C8's key branch at a concrete store. -/
theorem c8_witness :
    InMemoryBackend.clear ([("x", ⟨"v", 100⟩)] : Store String) none (some "x") = (1, []) := by
  rw [(c8_amended).2.1 String [("x", ⟨"v", 100⟩)] "x" (by decide)]
  decide

/-- Claim C10 counterexample: with the class-level shared store, a `set`
performed through instance 0 changes the result of `get` for the same key
through the distinct instance 1 from absent to the stored value. -/
theorem c10_counterexample :
    (InMemoryBackend.instGet ([] : Store String) 1 "k" 100).1 = none ∧
    (InMemoryBackend.instGet
        (InMemoryBackend.instSet ([] : Store String) 0 "k" "v" (some 60) 100) 1 "k" 100).1
      = some "v" := by decide

/-- Claim C10 amended: `InMemoryBackend._store` is a class attribute, so
entries are shared by every instance: a `set` issues the same class-store
update regardless of the instance it goes through, and a value set through
any instance `a` is immediately readable through any instance `b`; entries
live in the class store independently of any particular instance. -/
theorem c10_amended : ∀ (α : Type) (classStore : Store α) (a b : Nat) (key : String)
    (v : α) (e : Option Nat) (t : Nat),
    InMemoryBackend.instSet classStore a key v e t
      = InMemoryBackend.instSet classStore b key v e t ∧
    (InMemoryBackend.instGet (InMemoryBackend.instSet classStore a key v e t) b key t).1
      = some v := by
  intro α cs a b key v e t
  constructor
  · rfl
  · have hl : lookupStore (InMemoryBackend.set cs key v e t) key
        = some ⟨v, t + pyOrNat e 0⟩ := lookup_setKV cs key _
    have hle : ¬ (t + pyOrNat e 0 < t) := by omega
    simp [InMemoryBackend.instGet, InMemoryBackend.instSet, InMemoryBackend.get,
      InMemoryBackend.getAux, hl, hle]

/-- Claim C2: backend failures never reach the caller.  If the backend's
`get_with_ttl` raises, the call behaves as a miss and the wrapped callable
is invoked (the result and final counter are the callable's); and if on the
miss path the backend's `set` raises, the freshly computed result is still
returned. -/
theorem c2_backend_failure_resilience :
    (∀ (σ ε : Type) (site : DecoSite σ) (global? : Option (Manager σ))
        (func : Nat → Nat → Except ε PyVal × Nat) (cells : DecoCells) (st : σ)
        (cnt now arg : Nat) (mgr : Manager σ) (u : Unit),
      resolveManager site global? = some mgr →
      mgr.backend.get_with_ttl st (cacheKey site mgr cells arg) now = .error u →
      (inner site global? func cells st cnt now arg).1 =
          (match func arg cnt with
            | (.ok v, _) => .ok v
            | (.error e, _) => .error (.userErr e)) ∧
        (inner site global? func cells st cnt now arg).2.2.2 = (func arg cnt).2) ∧
    (∀ (σ ε : Type) (site : DecoSite σ) (global? : Option (Manager σ))
        (func : Nat → Nat → Except ε PyVal × Nat) (cells : DecoCells) (st : σ)
        (cnt now arg : Nat) (mgr : Manager σ) (v : PyVal) (cnt' : Nat) (u : Unit),
      resolveManager site global? = some mgr →
      (getStep mgr.backend st (cacheKey site mgr cells arg) now).1.2 = none →
      func arg cnt = (.ok v, cnt') →
      mgr.backend.set (getStep mgr.backend st (cacheKey site mgr cells arg) now).2
          (cacheKey site mgr cells arg) (actualEnc site mgr v) (effExpire cells mgr) now
        = .error u →
      (inner site global? func cells st cnt now arg).1 = .ok v) := by
  constructor
  · intro σ ε site global? func cells st cnt now arg mgr u hres hg
    have hmiss : (getStep mgr.backend st (cacheKey site mgr cells arg) now).1.2 = none := by
      simp [getStep, hg]
    rw [inner_eq_miss site global? func cells st cnt now arg mgr hres hmiss]
    rcases hf : func arg cnt with ⟨r, cnt'⟩
    cases r <;> simp [hf]
  · intro σ ε site global? func cells st cnt now arg mgr v cnt' u hres hmiss hf _hset
    rw [inner_eq_miss site global? func cells st cnt now arg mgr hres hmiss, hf]

/-- Witness for claim C2: a backend whose read raises still yields the fresh
result with the callable invoked once, and a backend whose write raises
still yields the fresh result. -/
theorem c2_witness :
    (inner siteDefault (some mgrFailGet) countingF cells0 ([] : Store JVal) 0 1000 5).1
      = .ok (.pint 10) ∧
    (inner siteDefault (some mgrFailGet) countingF cells0 ([] : Store JVal) 0 1000 5).2.2.2
      = 1 ∧
    (inner siteDefault (some mgrFailSet) countingF cells0 ([] : Store JVal) 0 1000 5).1
      = .ok (.pint 10) := by
  have h1 := (c2_backend_failure_resilience).1 (Store JVal) Empty siteDefault (some mgrFailGet)
    countingF cells0 [] 0 1000 5 mgrFailGet () rfl rfl
  have h2 := (c2_backend_failure_resilience).2 (Store JVal) Empty siteDefault (some mgrFailSet)
    countingF cells0 [] 0 1000 5 mgrFailSet (.pint 10) 1 () rfl rfl rfl rfl
  exact ⟨h1.1, h1.2, h2⟩

/-- Claim C7: on the miss path, an error raised by the wrapped callable
propagates unmodified, the backend store is exactly what the read step left
(no encode and no backend set happen), and with the in-memory backend and
no entry under the key the store is entirely unchanged. -/
theorem c7_wrapped_error_transparent :
    (∀ (σ ε : Type) (site : DecoSite σ) (global? : Option (Manager σ))
        (func : Nat → Nat → Except ε PyVal × Nat) (cells : DecoCells) (st : σ)
        (cnt now arg : Nat) (mgr : Manager σ) (e : ε) (cnt' : Nat),
      resolveManager site global? = some mgr →
      (getStep mgr.backend st (cacheKey site mgr cells arg) now).1.2 = none →
      func arg cnt = (.error e, cnt') →
      inner site global? func cells st cnt now arg =
        (.error (.userErr e), ⟨some (effExpire cells mgr), some (effKB cells mgr)⟩,
          (getStep mgr.backend st (cacheKey site mgr cells arg) now).2, cnt')) ∧
    (∀ (ε : Type) (site : DecoSite (Store JVal)) (global? : Option (Manager (Store JVal)))
        (func : Nat → Nat → Except ε PyVal × Nat) (cells : DecoCells) (st : Store JVal)
        (cnt now arg : Nat) (mgr : Manager (Store JVal)) (e : ε) (cnt' : Nat),
      resolveManager site global? = some mgr →
      mgr.backend = inmemB →
      lookupStore st (cacheKey site mgr cells arg) = none →
      func arg cnt = (.error e, cnt') →
      (inner site global? func cells st cnt now arg).2.2.1 = st) := by
  constructor
  · intro σ ε site global? func cells st cnt now arg mgr e cnt' hres hmiss hf
    rw [inner_eq_miss site global? func cells st cnt now arg mgr hres hmiss, hf]
  · intro ε site global? func cells st cnt now arg mgr e cnt' hres hb hlk hf
    have hg : getStep mgr.backend st (cacheKey site mgr cells arg) now = ((0, none), st) := by
      simp [getStep, hb, inmemB, get_with_ttl_lookup_none st _ now hlk]
    have hmiss : (getStep mgr.backend st (cacheKey site mgr cells arg) now).1.2 = none := by
      rw [hg]
    rw [inner_eq_miss site global? func cells st cnt now arg mgr hres hmiss, hf, hg]

/-- Witness for claim C7: a callable that raises leaves the empty store
empty and its error surfaces unchanged. -/
theorem c7_witness :
    inner siteDefault (some (jsonMgr "use-cache:" 600)) raisingF cells0
        ([] : Store JVal) 0 1000 5
      = (.error (.userErr ()), ⟨some 600, some kbArg⟩, [], 1) ∧
    (inner siteDefault (some (jsonMgr "use-cache:" 600)) raisingF cells0
        ([] : Store JVal) 0 1000 5).2.2.1 = ([] : Store JVal) :=
  ⟨(c7_wrapped_error_transparent).1 (Store JVal) Unit siteDefault
      (some (jsonMgr "use-cache:" 600)) raisingF cells0 [] 0 1000 5
      (jsonMgr "use-cache:" 600) () 1 rfl rfl rfl,
   (c7_wrapped_error_transparent).2 Unit siteDefault
      (some (jsonMgr "use-cache:" 600)) raisingF cells0 [] 0 1000 5
      (jsonMgr "use-cache:" 600) () 1 rfl rfl rfl rfl⟩

/-- Claim C4 counterexample: a decorator-site expiration override of `0`
(`@cache(expire=0)`) is not used — under a manager whose default expiration
is 600, the stored entry's expiry timestamp is `1000 + 600 = 1600`, not the
override's `1000 + 0`. -/
theorem c4_counterexample :
    lookupStore
        (inner siteDefault (some (jsonMgr "use-cache:" 600)) countingF cellsExp0
          ([] : Store JVal) 0 1000 5).2.2.1
        (cacheKey siteDefault (jsonMgr "use-cache:" 600) cellsExp0 5)
      = some ⟨JsonCoder.encode (.pint 10), 1600⟩ ∧
    ¬ (lookupStore
        (inner siteDefault (some (jsonMgr "use-cache:" 600)) countingF cellsExp0
          ([] : Store JVal) 0 1000 5).2.2.1
        (cacheKey siteDefault (jsonMgr "use-cache:" 600) cellsExp0 5)
      = some ⟨JsonCoder.encode (.pint 10), 1000 + 0⟩) := by
  constructor
  · rfl
  · intro h
    have h2 : (some (⟨JsonCoder.encode (.pint 10), 1600⟩ : Value JVal))
        = some ⟨JsonCoder.encode (.pint 10), 1000 + 0⟩ := h
    injection h2 with h3
    have h4 := congrArg Value.ttl_ts h3
    exact absurd h4 (by decide)

/-- Claim C4 amended: on every invocation that finds a manager, the
resolved expiration and key builder are written back to the closure cells;
on the in-memory miss path the stored entry's expiry is `now` plus the
resolution `effExpire` (decorator override if nonzero, else the manager's
default — Python `or` treats a 0 override as absent); on a hit the value
returned is the cached bytes decoded by the per-invocation resolved coder
(site override if given, else the current manager's); and a later
invocation under another manager reuses the memoized expiration unless it
resolved to 0. -/
theorem c4_amended :
    (∀ (σ ε : Type) (site : DecoSite σ) (global? : Option (Manager σ))
        (func : Nat → Nat → Except ε PyVal × Nat) (cells : DecoCells) (st : σ)
        (cnt now arg : Nat) (mgr : Manager σ),
      resolveManager site global? = some mgr →
      (inner site global? func cells st cnt now arg).2.1
        = ⟨some (effExpire cells mgr), some (effKB cells mgr)⟩) ∧
    (∀ (ε : Type) (site : DecoSite (Store JVal)) (global? : Option (Manager (Store JVal)))
        (func : Nat → Nat → Except ε PyVal × Nat) (cells : DecoCells) (st : Store JVal)
        (cnt now arg : Nat) (mgr : Manager (Store JVal)) (v : PyVal) (cnt' : Nat),
      resolveManager site global? = some mgr →
      mgr.backend = inmemB →
      lookupStore st (cacheKey site mgr cells arg) = none →
      func arg cnt = (.ok v, cnt') →
      lookupStore (inner site global? func cells st cnt now arg).2.2.1
          (cacheKey site mgr cells arg)
        = some ⟨actualEnc site mgr v, now + effExpire cells mgr⟩) ∧
    (∀ (σ ε : Type) (site : DecoSite σ) (global? : Option (Manager σ))
        (func : Nat → Nat → Except ε PyVal × Nat) (cells : DecoCells) (st : σ)
        (cnt now arg : Nat) (mgr : Manager σ) (c : JVal),
      resolveManager site global? = some mgr →
      (getStep mgr.backend st (cacheKey site mgr cells arg) now).1.2 = some c →
      (inner site global? func cells st cnt now arg).1
        = (match actualDec site mgr c with
            | some v => .ok v
            | none => .error .decodeErr)) ∧
    (∀ (σ ε : Type) (site : DecoSite σ) (global? : Option (Manager σ))
        (func : Nat → Nat → Except ε PyVal × Nat) (cells : DecoCells) (st : σ)
        (cnt now arg : Nat) (mgr mgr2 : Manager σ),
      resolveManager site global? = some mgr →
      effExpire (inner site global? func cells st cnt now arg).2.1 mgr2
        = (if effExpire cells mgr = 0 then mgr2.expire else effExpire cells mgr)) := by
  refine ⟨?_, ?_, ?_, ?_⟩
  · intro σ ε site global? func cells st cnt now arg mgr hres
    exact inner_cells site global? func cells st cnt now arg mgr hres
  · intro ε site global? func cells st cnt now arg mgr v cnt' hres hb hlk hf
    have hg : getStep mgr.backend st (cacheKey site mgr cells arg) now = ((0, none), st) := by
      simp [getStep, hb, inmemB, get_with_ttl_lookup_none st _ now hlk]
    have hmiss : (getStep mgr.backend st (cacheKey site mgr cells arg) now).1.2 = none := by
      rw [hg]
    rw [inner_eq_miss site global? func cells st cnt now arg mgr hres hmiss, hf, hg]
    simp [setStep, hb, inmemB, InMemoryBackend.set, pyOrNat_some_zero_right,
      lookup_setKV]
  · intro σ ε site global? func cells st cnt now arg mgr c hres hhit
    rw [inner_eq_hit site global? func cells st cnt now arg mgr c hres hhit]
    cases hd : actualDec site mgr c <;> simp [hd]
  · intro σ ε site global? func cells st cnt now arg mgr mgr2 hres
    rw [inner_cells site global? func cells st cnt now arg mgr hres]
    simp [effExpire, pyOrNat]

/-- Witness for claim C4's amended behavior: a zero override resolves to
the manager default 600, the stored expiry is `1000 + 600`, and a second
manager with default 300 does not change the memoized nonzero value. -/
theorem c4_witness :
    lookupStore
        (inner siteDefault (some (jsonMgr "use-cache:" 600)) countingF cellsExp0
          ([] : Store JVal) 0 1000 5).2.2.1
        (cacheKey siteDefault (jsonMgr "use-cache:" 600) cellsExp0 5)
      = some ⟨actualEnc siteDefault (jsonMgr "use-cache:" 600) (.pint 10),
          1000 + effExpire cellsExp0 (jsonMgr "use-cache:" 600)⟩ ∧
    effExpire
        (inner siteDefault (some (jsonMgr "use-cache:" 600)) countingF cellsExp0
          ([] : Store JVal) 0 1000 5).2.1
        (jsonMgr "use-cache:" 300)
      = (if effExpire cellsExp0 (jsonMgr "use-cache:" 600) = 0
          then (jsonMgr "use-cache:" 300).expire
          else effExpire cellsExp0 (jsonMgr "use-cache:" 600)) :=
  ⟨(c4_amended).2.1 Empty siteDefault (some (jsonMgr "use-cache:" 600)) countingF cellsExp0
      [] 0 1000 5 (jsonMgr "use-cache:" 600) (.pint 10) 1 rfl rfl rfl rfl,
   (c4_amended).2.2.2 (Store JVal) Empty siteDefault (some (jsonMgr "use-cache:" 600))
      countingF cellsExp0 [] 0 1000 5 (jsonMgr "use-cache:" 600) (jsonMgr "use-cache:" 300) rfl⟩

/-- Claim C9 counterexample: a plain dictionary that happens to contain the
key `"_spec_type"` is built from JSON primitives and dictionaries, yet the
coder decodes its encoding to a `Decimal`, not back to the dictionary. -/
theorem c9_counterexample :
    JsonCoder.decode (JsonCoder.encode
        (.pdict [("val", .pstr "1"), ("_spec_type", .pstr "decimal")]))
      = some (.pdecimal "1") ∧
    ¬ (JsonCoder.decode (JsonCoder.encode
        (.pdict [("val", .pstr "1"), ("_spec_type", .pstr "decimal")]))
      = some (.pdict [("val", .pstr "1"), ("_spec_type", .pstr "decimal")])) := by
  constructor
  · rfl
  · intro h
    have h2 : (some (PyVal.pdecimal "1") : Option PyVal)
        = some (.pdict [("val", .pstr "1"), ("_spec_type", .pstr "decimal")]) := h
    injection h2 with h3
    exact PyVal.noConfusion h3

/-- Claim C9 amended: for every well-formed value built from JSON
primitives, lists, and string-keyed dictionaries — with `datetime`, `date`
and `Decimal` nested anywhere — in which no dictionary uses the reserved
marker key `"_spec_type"`, decoding the encoding returns the value. -/
theorem c9_amended : ∀ (v : PyVal), wfPy v = true → noMarker v = true →
    JsonCoder.decode (JsonCoder.encode v) = some v :=
  fun v hw hm => decode_encode v hw hm

/-- Witness for claim C9 on a composite value with all special types. -/
theorem c9_witness :
    wfPy (.pdict [("ts", .pdatetime 2024 1 2 3 4 5), ("d", .pdate 2024 1 2),
        ("amount", .pdecimal "123.45"),
        ("xs", .plist [.pint 1, .pnone, .pbool true, .pstr "s"])]) = true ∧
    noMarker (.pdict [("ts", .pdatetime 2024 1 2 3 4 5), ("d", .pdate 2024 1 2),
        ("amount", .pdecimal "123.45"),
        ("xs", .plist [.pint 1, .pnone, .pbool true, .pstr "s"])]) = true ∧
    JsonCoder.decode (JsonCoder.encode
        (.pdict [("ts", .pdatetime 2024 1 2 3 4 5), ("d", .pdate 2024 1 2),
          ("amount", .pdecimal "123.45"),
          ("xs", .plist [.pint 1, .pnone, .pbool true, .pstr "s"])]))
      = some (.pdict [("ts", .pdatetime 2024 1 2 3 4 5), ("d", .pdate 2024 1 2),
          ("amount", .pdecimal "123.45"),
          ("xs", .plist [.pint 1, .pnone, .pbool true, .pstr "s"])]) :=
  ⟨rfl, rfl, c9_amended _ rfl rfl⟩

end UseCache
